import Mathlib

/-!
# Verification of the image-capture extension core

Shallow embedding of the core logic of the `chrome-extension-images-download`
repository:

* `src/utils/generateThumbnailFromBlob.ts` (and the richer variant among the
  unnamed background sources): thumbnail derivation with SVG fallbacks;
* `src/utils/indexedDBUtils.ts`: the persistent store (modelled as a list of
  records with upsert keyed by `url`) and `loadImageThumbnailData`;
* the background script (`src/background/index.ts` and its refactored
  unnamed variant): `fetchAndStoreImage`, the ZIP single-flight guard and
  `handleZipDownload`;
* `src/utils/zipUtils.ts`: `chunkArray` and `createZipFromCapturedImages`
  (archives and progress reporting).

Host I/O outcomes (network fetch, bitmap decode, canvas context creation,
encoding, archive serialization percents, download completion) are supplied
by explicit environment records, so every code path of the source is a
total computable Lean function of the inputs and the environment.
JavaScript strings are modelled by `String`, with the library operations
`toLowerCase`, `startsWith`, `includes` and `split(".")` re-implemented
over `List Char` (ASCII case folding) so that they evaluate by `decide`.
`Math.round` is modelled by Mathlib's `round` on exact rationals, which
agrees with JS rounding (half-up) for the non-negative values that occur.
-/

/-- ASCII case folding of one character (model of JS `toLowerCase` for the
ASCII strings involved here). -/
def charToLower (c : Char) : Char :=
  if 'A' ≤ c && c ≤ 'Z' then Char.ofNat (c.toNat + 32) else c

/-- Model of `String.prototype.toLowerCase` (ASCII). -/
def strToLower (s : String) : String := String.mk (s.toList.map charToLower)

/-- Model of `String.prototype.startsWith`. -/
def strStartsWith (s pre : String) : Bool := pre.toList.isPrefixOf s.toList

/-- Membership of `sub` as a contiguous run of `l` (helper for
`strIncludes`). -/
def listIsInfix (sub : List Char) : List Char → Bool
  | [] => sub.isEmpty
  | c :: rest => sub.isPrefixOf (c :: rest) || listIsInfix sub rest

/-- Model of `String.prototype.includes`. -/
def strIncludes (s sub : String) : Bool := listIsInfix sub.toList s.toList

/-- Helper of `splitOnDot`. -/
def splitOnDotAux (acc : List Char) : List Char → List String
  | [] => [String.mk acc.reverse]
  | c :: rest =>
    if c = '.' then String.mk acc.reverse :: splitOnDotAux [] rest
    else splitOnDotAux (c :: acc) rest

/-- Model of `url.split(".")`. -/
def splitOnDot (s : String) : List String := splitOnDotAux [] s.toList

/-- Model of a JS `Blob`.  Besides its MIME `type`, byte payload and `size`,
it carries the outcomes of the host text-decoding operations the source
performs on it: `headOk`/`head` model `blob.slice(0, 200).text()` and
`textOk`/`text` model `blob.text()` (a rejected read is modelled by the
corresponding flag being `false`). -/
structure Blob where
  type : String
  bytes : List Nat
  size : Nat
  headOk : Bool
  head : String
  textOk : Bool
  text : String
deriving DecidableEq, Repr

/-- Record shape of `CapturedImage` in `src/utils/indexedDBUtils.ts`. -/
structure CapturedImage where
  url : String
  tabId : Int
  timestamp : Int
  fullData : Option Blob
  thumbnailData : Option String
  width : Option Int
  height : Option Int
  fileSize : Option Nat
deriving DecidableEq, Repr

deriving instance DecidableEq for Except

/-! ## Thumbnail derivation (`generateThumbnailFromBlob`) -/

/-- Model of the regex test `/^\s*<\?xml|^\s*<svg/i` in the richer
background variant's `isProbablySvg`: skip leading whitespace, then look
case-insensitively for an `<?xml` or `<svg` prologue. -/
def svgHeadTest (head : String) : Bool :=
  let t := String.mk (head.toList.dropWhile fun c =>
    c = ' ' || c = '\t' || c = '\n' || c = '\r')
  let low := strToLower t
  strStartsWith low "<?xml" || strStartsWith low "<svg"

/-- Model of `isProbablySvg` from the richer `generateThumbnailFromBlob`: the blob is
treated as SVG if its MIME type says so, or if the first ~200 bytes (when
readable) contain an XML/SVG prologue. -/
def isProbablySvg (b : Blob) : Bool :=
  if b.type = "image/svg+xml" then true
  else if b.headOk then svgHeadTest b.head
  else false

/-- The host builtin `encodeURIComponent`; it is modelled as the identity
encoding since only the data-URI framing of its output matters for the
properties below. -/
def encodeURIComponent (s : String) : String := s

/-- The raw-SVG fallback data URI built by the source:
`"data:image/svg+xml;charset=utf-8," + encodeURIComponent(svgText)`. -/
def svgDataUrl (text : String) : String :=
  "data:image/svg+xml;charset=utf-8," ++ encodeURIComponent text

/-- The fixed `placeholder` constant at the bottom of the richer
`generateThumbnailFromBlob` source file. -/
def errorPlaceholder : String :=
  "data:image/svg+xml;charset=utf-8,<svg xmlns=\"http://www.w3.org/2000/svg\" width=\"50\" height=\"50\"><rect width=\"100%\" height=\"100%\" fill=\"#ccc\"/><text x=\"50%\" y=\"50%\" dominant-baseline=\"middle\" text-anchor=\"middle\" font-size=\"10\">Error</text></svg>"

/-- Thumbnail dimension computation shared verbatim by both
`generateThumbnailFromBlob` implementations:

```
if (thumbWidth > thumbHeight) {
  if (thumbWidth > maxWidth) {
    thumbHeight = Math.round(thumbHeight * (maxWidth / thumbWidth));
    thumbWidth = maxWidth; }
} else {
  if (thumbHeight > maxHeight) {
    thumbWidth = Math.round(thumbWidth * (maxHeight / thumbHeight));
    thumbHeight = maxHeight; } }
```
-/
def thumbDims (w h maxW maxH : Nat) : Int × Int :=
  if w > h then
    if w > maxW then ((maxW : Int), round ((h : ℚ) * ((maxW : ℚ) / (w : ℚ))))
    else ((w : Int), (h : Int))
  else
    if h > maxH then (round ((w : ℚ) * ((maxH : ℚ) / (h : ℚ))), (maxH : Int))
    else ((w : Int), (h : Int))

/-- Host-side outcomes for one run of `generateThumbnailFromBlob`:
whether `createImageBitmap(blob)` succeeds (`decodeOk`) and the decoded
bitmap's dimensions, whether the SVG `Image`-element fallback decode
succeeds (`svgImageLoadOk`), whether `getContext("2d")` returns a context
(`ctxOk`), whether `convertToBlob` + `FileReader` encoding succeeds
(`encodeOk`), and the base64 payload the reader would produce. -/
structure ThumbEnv where
  decodeOk : Bool
  width : Nat
  height : Nat
  svgImageLoadOk : Bool
  ctxOk : Bool
  encodeOk : Bool
  jpegBase64 : String
deriving DecidableEq, Repr

/-- Result of a `generateThumbnailFromBlob` run: the settled promise value
(`Except.error` = rejection), the `convertToBlob` call that was made (type
and quality), if any, and the canvas dimensions that were used, if any. -/
structure ThumbResult where
  result : Except String String
  encodeCall : Option (String × ℚ)
  dims : Option (Int × Int)
deriving DecidableEq

/-- The raster tail of the richer `generateThumbnailFromBlob`, entered once
an `ImageBitmap` has been obtained (directly, or through the SVG `Image`
fallback): scale via `thumbDims`, require a 2d context (throwing if absent,
outside any `try`), then `convertToBlob({type:"image/jpeg", quality:0.8})`
followed by a `FileReader` data-URL read; on encode failure fall back to
the raw SVG data URI when the input was detected as SVG and its text is
readable, else to the fixed placeholder. -/
def thumbFromBitmap (b : Blob) (svg : Bool) (w h maxW maxH : Nat)
    (env : ThumbEnv) : ThumbResult :=
  let dims := thumbDims w h maxW maxH
  if !env.ctxOk then
    { result := .error "Could not get 2D rendering context from canvas."
      encodeCall := none, dims := some dims }
  else if env.encodeOk then
    { result := .ok ("data:image/jpeg;base64," ++ env.jpegBase64)
      encodeCall := some ("image/jpeg", 4/5), dims := some dims }
  else if svg && b.textOk then
    { result := .ok (svgDataUrl b.text)
      encodeCall := some ("image/jpeg", 4/5), dims := some dims }
  else
    { result := .ok errorPlaceholder
      encodeCall := some ("image/jpeg", 4/5), dims := some dims }

/-- Model of the richer `generateThumbnailFromBlob` (the variant with SVG
fallbacks; the simpler `src/utils` variant consists of exactly the
`decodeOk` branch plus rethrow).  Control flow from the source:

1. `svg := isProbablySvg(blob)`;
2. try `createImageBitmap(blob)`; on failure: non-SVG inputs rethrow;
3. SVG fallback: read the blob text (unreadable text rethrows the original
   error), load it into an `Image` element and re-decode; if that also
   fails, return the raw SVG markup as a data URI (text is readable here);
4. with a bitmap in hand, scale and encode (`thumbFromBitmap`).

The host error message of a rethrown decode exception is modelled by the
fixed string `"createImageBitmap failed"`. -/
def generateThumbnailFromBlob (b : Blob) (maxW maxH : Nat)
    (env : ThumbEnv) : ThumbResult :=
  let svg := isProbablySvg b
  if env.decodeOk then
    thumbFromBitmap b svg env.width env.height maxW maxH env
  else if !svg then
    { result := .error "createImageBitmap failed", encodeCall := none, dims := none }
  else if !b.textOk then
    { result := .error "createImageBitmap failed", encodeCall := none, dims := none }
  else if env.svgImageLoadOk then
    thumbFromBitmap b svg env.width env.height maxW maxH env
  else
    { result := .ok (svgDataUrl b.text), encodeCall := none, dims := none }

/-! ## Persistent store (`indexedDBUtils.ts`)

The IndexedDB object store with `keyPath: "url"` is modelled as a list of
records in insertion order; `store.put` is an upsert keyed by `url`. -/

/-- Model of `saveImage` (`store.put(image)` on the object store keyed by `url`):
overwrite the record with the same `url` if present, else append. -/
def saveImage (store : List CapturedImage) (img : CapturedImage) :
    List CapturedImage :=
  if store.any (fun r => r.url == img.url) then
    store.map (fun r => if r.url == img.url then img else r)
  else store ++ [img]

/-- Model of `loadImageByUrl` (`store.get(url)`). -/
def loadImageByUrl (store : List CapturedImage) (url : String) :
    Option CapturedImage :=
  store.find? (fun r => r.url == url)

/-- Number of records in the store whose key is `url`. -/
def countUrl (store : List CapturedImage) (url : String) : Nat :=
  (store.filter (fun r => r.url == url)).length

/-! ## Capture pipeline (`fetchAndStoreImage`)

Modelled from the refactored background variant, the one that validates the
fetched MIME type (the `src/background/index.ts` copy is identical except
that it omits the MIME check).  All host outcomes of one call are collected
in a `CaptureEnv`. -/

/-- Host outcomes for one `fetchAndStoreImage(url, tabId)` call: whether
the initial `loadImageByUrl` store read succeeds, the fetched blob (`none`
models a network failure or a non-ok response status), the thumbnailing
outcomes, whether the `saveImage` store write succeeds, and `Date.now()`. -/
structure CaptureEnv where
  lookupOk : Bool
  fetchResult : Option Blob
  thumbEnv : ThumbEnv
  saveOk : Bool
  now : Int
deriving DecidableEq, Repr

/-- The `try` body of `fetchAndStoreImage` before its `catch`:

1. `loadImageByUrl(url)`; an existing record returns early (dedup);
2. fetch the resource (failure throws);
3. discard non-image payloads *without* error:
   `if (!mimeType.startsWith("image/") && mimeType !== "image/svg+xml") return;`
4. derive a thumbnail (a rejection propagates);
5. build the record and `saveImage` it (upsert; write failure throws).

`Except.error` models reaching the `catch` block. -/
def fetchAndStoreImageCore (store : List CapturedImage) (url : String)
    (tabId : Int) (env : CaptureEnv) : Except String (List CapturedImage) :=
  if !env.lookupOk then .error "Failed to load image"
  else
    match loadImageByUrl store url with
    | some _ => .ok store
    | none =>
      match env.fetchResult with
      | none => .error "Failed to fetch image"
      | some blob =>
        if !(strStartsWith blob.type "image/") && blob.type != "image/svg+xml" then
          .ok store
        else
          match (generateThumbnailFromBlob blob 50 50 env.thumbEnv).result with
          | .error e => .error e
          | .ok thumb =>
            if env.saveOk then
              .ok (saveImage store
                { url := url, tabId := tabId, timestamp := env.now
                  fullData := some blob, thumbnailData := some thumb
                  width := some 0, height := some 0
                  fileSize := some blob.size })
            else .error "Failed to save image"

/-- Model of `fetchAndStoreImage`: the `catch` block only logs, so the promise always
resolves; on any internal failure the store is left unchanged. -/
def fetchAndStoreImage (store : List CapturedImage) (url : String)
    (tabId : Int) (env : CaptureEnv) : List CapturedImage :=
  match fetchAndStoreImageCore store url tabId env with
  | .ok s => s
  | .error _ => store

/-- A capture call fully succeeds when the store read succeeds, the fetch
returns an image-typed blob, thumbnailing resolves and the store write
succeeds — exactly the conditions under which `fetchAndStoreImageCore`
reaches `saveImage`. -/
def captureSucceeds (env : CaptureEnv) : Bool :=
  env.lookupOk &&
    (match env.fetchResult with
     | none => false
     | some b =>
       (strStartsWith b.type "image/" || b.type == "image/svg+xml") &&
         (generateThumbnailFromBlob b 50 50 env.thumbEnv).result.isOk) &&
    env.saveOk

/-- A sequence of capture calls for one url, each settling before the next
starts, with per-call host outcomes listed in order. -/
def runCaptures (store : List CapturedImage) (url : String) (tabId : Int)
    (envs : List CaptureEnv) : List CapturedImage :=
  envs.foldl (fun s e => fetchAndStoreImage s url tabId e) store

/-! ## `loadImageThumbnailData` -/

/-- The three ways the promise of an async entry point can end up: settled
by `resolve`, settled by `reject`, or never settled because neither was
called. -/
inductive PromiseOutcome (α : Type) where
  | resolved (a : α)
  | rejected (msg : String)
  | pending
deriving DecidableEq, Repr

/-- JS truthiness of an optional string field (`undefined` and `""` are
falsy). -/
def truthyStr : Option String → Bool
  | none => false
  | some s => s != ""

/-- Host outcomes for one `loadImageThumbnailData(url)` call: the result of
the `store.get(url)` request (`Except.error` models `req.onerror`, `Option`
the possibly-missing record), the thumbnailing outcomes for the on-the-fly
generation path, and whether the write-back `saveImage` succeeds. -/
structure LoadThumbEnv where
  getResult : Except String (Option CapturedImage)
  thumbEnv : ThumbEnv
  saveOk : Bool

/-- Model of `loadImageThumbnailData` from `src/utils/indexedDBUtils.ts`:

* `req.onerror` rejects;
* `req.onsuccess` with a record having truthy `thumbnailData` resolves it;
* else, with `fullData` present, generates a thumbnail on the fly and
  resolves it whether or not the write-back save succeeds, but on
  generation failure the `.catch` handler only logs — neither `resolve`
  nor `reject` is called;
* in every remaining case (no record, or a record with neither field)
  the executor simply returns without settling the promise. -/
def loadImageThumbnailData (env : LoadThumbEnv) : PromiseOutcome String :=
  match env.getResult with
  | .error e => .rejected e
  | .ok none => .pending
  | .ok (some img) =>
    if truthyStr img.thumbnailData then
      .resolved (img.thumbnailData.getD "")
    else
      match img.fullData with
      | some b =>
        match (generateThumbnailFromBlob b 50 50 env.thumbEnv).result with
        | .ok t => .resolved t
        | .error _ => .pending
      | none => .pending

/-! ## Archive export (`zipUtils.ts` and `handleZipDownload`) -/

/-- Constant `ZIP_CONFIG.MAX_IMAGES_PER_ZIP` from `src/constants/index.ts`. -/
def zipMaxImagesPerZip : Nat := 10000

/-- Constant `DEFAULT_CONFIG.FILENAME_BASE`. -/
def filenameBase : String := "image"

/-- Constant `FILE_CONFIG.DEFAULT_EXTENSION`. -/
def defaultExtension : String := "png"

/-- Constant `EXTENSION_CONFIG.SUPPORTED_IMAGE_EXTENSIONS`. -/
def supportedImageExtensions : List String :=
  ["jpg", "jpeg", "png", "gif", "webp", "bmp", "svg"]

/-- Model of `chunkArray` from `zipUtils.ts`:
`for (let i = 0; i < arr.length; i += size) out.push(arr.slice(i, i + size))`.
The loop would not terminate for `size = 0`; the source only ever calls it
with `size = MAX_IMAGES_PER_ZIP`, so that case is mapped to `[]`. -/
def chunkArray {α : Type} (arr : List α) (size : Nat) : List (List α) :=
  if _h : size = 0 then []
  else
    match arr with
    | [] => []
    | a :: rest => (a :: rest).take size :: chunkArray ((a :: rest).drop size) size
termination_by arr.length
decreasing_by
  simp only [List.length_drop, List.length_cons]
  omega

/-- Model of `createFilename` from `zipUtils.ts`:
`` `${FILENAME_BASE}-${index + 1}.${extension || DEFAULT_EXTENSION}` ``. -/
def createFilename (index : Nat) (extension : String) : String :=
  filenameBase ++ "-" ++ toString (index + 1) ++ "."
    ++ (if extension = "" then defaultExtension else extension)

/-- The content-type part of the per-image extension choice inside
`createZipFromCapturedImages` (the `includes` cascade with default
`"png"`). -/
def extFromContentType (ct : String) : String :=
  if strIncludes ct "jpeg" || strIncludes ct "jpg" then "jpg"
  else if strIncludes ct "png" then "png"
  else if strIncludes ct "gif" then "gif"
  else if strIncludes ct "webp" then "webp"
  else if strIncludes ct "bmp" then "bmp"
  else if strIncludes ct "svg" then "svg"
  else "png"

/-- The full extension choice: content type first; when that leaves the
default, try the lower-cased URL extension (`url.split(".").pop()`),
accepted only when truthy and in the supported list, with `jpeg`
normalized to `jpg`. -/
def extForImage (img : CapturedImage) (blob : Blob) : String :=
  let contentType := if blob.type = "" then "image/png" else blob.type
  let ext := extFromContentType contentType
  if ext = defaultExtension then
    match (splitOnDot img.url).getLast? with
    | none => ext
    | some urlExt0 =>
      let urlExt := strToLower urlExt0
      if urlExt != "" && supportedImageExtensions.contains urlExt then
        (if urlExt = "jpeg" then "jpg" else urlExt)
      else ext
  else ext

/-- One archive: the `(filename, bytes)` entries added to a `JSZip`
instance, in insertion order. -/
abbrev Archive := List (String × List Nat)

/-- The per-chunk entry loop of `createZipFromCapturedImages`
(`for (let j = 0; j < chunk.length; j++)`): a record without `fullData` is
skipped; otherwise `zip.file(createFilename(i * MAX + j, ext), bytes)` is
called.  `i` is the chunk index and `j` the position within the chunk. -/
def zipEntriesAux (i : Nat) : Nat → List CapturedImage → Archive
  | _, [] => []
  | j, img :: rest =>
    (match img.fullData with
     | none => []
     | some blob =>
       [(createFilename (i * zipMaxImagesPerZip + j) (extForImage img blob),
         blob.bytes)])
      ++ zipEntriesAux i (j + 1) rest

/-- The entries of the archive built for chunk `i`. -/
def zipEntriesOfChunk (i : Nat) (chunk : List CapturedImage) : Archive :=
  zipEntriesAux i 0 chunk

/-- The archive blobs produced by `createZipFromCapturedImages`: one per
chunk of `chunkArray(images, ZIP_CONFIG.MAX_IMAGES_PER_ZIP)`. -/
def createZipArchives (images : List CapturedImage) : List Archive :=
  ((chunkArray images zipMaxImagesPerZip).enum).map
    (fun p => zipEntriesOfChunk p.1 p.2)

/-! ### Progress reporting of `createZipFromCapturedImages`

`K` is `chunks.length`, `i` the 0-based chunk index, `len` the chunk
length, `j` the 0-based record index within the chunk. -/

/-- The per-record ("processing") progress value:
`chunkProgress = Math.round((j / chunk.length) * 30)` and
`overall = Math.round((i * 100) / chunks.length + chunkProgress / chunks.length)`. -/
def recordProgressVal (K i len j : Nat) : Int :=
  round (((i : ℚ) * 100) / (K : ℚ)
    + ((round (((j : ℚ) / (len : ℚ)) * 30) : Int) : ℚ) / (K : ℚ))

/-- The per-record progress events of one chunk: a record without
`fullData` is skipped (`continue`) before any progress call; otherwise an
event fires when `j % Math.max(1, Math.floor(chunk.length / 10)) === 0`. -/
def perRecordAux (K i len : Nat) : Nat → List CapturedImage → List Int
  | _, [] => []
  | j, img :: rest =>
    (if img.fullData.isSome then
       (if j % max 1 (len / 10) = 0 then [recordProgressVal K i len j] else [])
     else [])
      ++ perRecordAux K i len (j + 1) rest

/-- All per-record progress events of a chunk. -/
def perRecordEvents (K i : Nat) (chunk : List CapturedImage) : List Int :=
  perRecordAux K i chunk.length 0 chunk

/-- The serialization-phase progress values, driven by JSZip's own
`metadata.percent` callbacks:
`overall = Math.round((i * 100 + Math.round(metadata.percent)) / chunks.length)`. -/
def serEvents (K i : Nat) (serP : List ℚ) : List Int :=
  serP.map fun p =>
    round (((i : ℚ) * 100 + ((round p : Int) : ℚ)) / (K : ℚ))

/-- All progress events of chunk `i`, in source order: the per-record
events, then the packaging report
`Math.round(((i + 0.5) * 100) / chunks.length)`, then the serialization
events, then the completion report
`Math.round(((i + 1) / chunks.length) * 100)`. -/
def chunkProgressEvents (K i : Nat) (chunk : List CapturedImage)
    (serP : List ℚ) : List Int :=
  perRecordEvents K i chunk
    ++ [round ((((i : ℚ) + 1/2) * 100) / (K : ℚ))]
    ++ serEvents K i serP
    ++ [round ((((i : ℚ) + 1) / (K : ℚ)) * 100)]

/-- The full sequence of percentages handed to the progress callback by
`createZipFromCapturedImages`: the initial `progressCallback(0, ...)`, then
each chunk's events in order.  `serP i` gives the `metadata.percent` values
JSZip reports while serializing chunk `i`. -/
def createZipProgress (images : List CapturedImage) (serP : Nat → List ℚ) :
    List Int :=
  let chunks := chunkArray images zipMaxImagesPerZip
  0 :: (chunks.enum.map
    (fun p => chunkProgressEvents chunks.length p.1 p.2 (serP p.1))).flatten

/-! ### Delivery (`handleZipDownload`) -/

/-- Host outcomes for one export run: the `datePart` of
`new Date().toISOString().slice(0, 10)`, the JSZip serialization percents
per chunk, and whether the `i`-th `chrome.downloads.download` completes
(`false` models an interrupted download, which rejects). -/
structure ExportEnv where
  datePart : String
  serPercents : Nat → List ℚ
  downloadOk : Nat → Bool

/-- The delivered file name in `handleZipDownload`:
`` zipBlobs.length > 1 ? `captured-images-${datePart}-part-${i + 1}.zip`
: `captured-images-${datePart}.zip` `` (the same formula also names the
chunk inside `createZipFromCapturedImages`). -/
def zipFileName (total : Nat) (date : String) (i : Nat) : String :=
  if total > 1 then
    "captured-images-" ++ date ++ "-part-" ++ toString (i + 1) ++ ".zip"
  else
    "captured-images-" ++ date ++ ".zip"

/-- The sequential download loop of `handleZipDownload`: each archive is
converted and handed to `chrome.downloads.download` with its file name,
awaiting completion; an interruption rejects and aborts the rest. -/
def downloadZipsAux (total : Nat) (env : ExportEnv) :
    Nat → List Archive → Except String (List (String × Archive))
  | _, [] => .ok []
  | i, a :: rest =>
    if env.downloadOk i then
      match downloadZipsAux total env (i + 1) rest with
      | .ok L => .ok ((zipFileName total env.datePart i, a) :: L)
      | .error e => .error e
    else .error "Download was interrupted"

/-- Model of `handleZipDownload`: load all records; an empty store returns
immediately (zero archives, zero downloads, success); otherwise build the
archives and deliver them sequentially.  The returned list contains the
`(fileName, blob)` pairs of the completed `chrome.downloads.download`
calls; `Except.error` models the rethrown failure. -/
def handleZipDownload (store : List CapturedImage) (env : ExportEnv) :
    Except String (List (String × Archive)) :=
  if store.length = 0 then .ok []
  else
    let archives := createZipArchives store
    downloadZipsAux archives.length env 0 archives

/-! ## Single-flight guard (`isZipOperationRunning`) -/

/-- The background script's state relevant to the ZIP guard: the global
`isZipOperationRunning` flag and how many `handleZipDownload` builds have
been started. -/
structure BgZipState where
  isZipOperationRunning : Bool
  buildsStarted : Nat
deriving DecidableEq, Repr

/-- The error payload of the immediate rejection response:
`{ type: "ZIP_DOWNLOAD_COMPLETE", success: false, error: "Zip operation
already in progress" }`. -/
def zipAlreadyRunningError : String := "Zip operation already in progress"

/-- A response sent via `sendResponse` (the `type` tag is constant and
omitted). -/
structure ZipResponse where
  success : Bool
  error : Option String
deriving DecidableEq, Repr

/-- Events of the guard state machine.  JS is single-threaded and the
check-and-set of the flag is synchronous, so each event is one atomic
step: a `ZIP_AND_DOWNLOAD_ALL_IMAGES` runtime message, a `downloadAllAsZip`
context-menu click, or the settling of a running `handleZipDownload`
(its `.then`/`.catch`). -/
inductive ZipEvent where
  | msgZipRequest
  | ctxZipClick
  | buildDone (success : Bool)
deriving DecidableEq, Repr

/-- One step of the guard, returning the next state and the responses sent
synchronously during the step.  From `src/background/index.ts`:

* message with flag set → `sendResponse({success: false, error: "Zip
  operation already in progress"})`, nothing started;
* message with flag clear → set flag, start the build, respond later;
* context-menu click with flag set → `return;` — nothing sent, nothing
  started;
* context-menu click with flag clear → set flag, start the build;
* build completion or failure → clear the flag (the deferred responses
  and badge updates are outside this model). -/
def zipStep (s : BgZipState) : ZipEvent → BgZipState × List ZipResponse
  | .msgZipRequest =>
    if s.isZipOperationRunning then
      (s, [{ success := false, error := some zipAlreadyRunningError }])
    else
      ({ isZipOperationRunning := true, buildsStarted := s.buildsStarted + 1 }, [])
  | .ctxZipClick =>
    if s.isZipOperationRunning then (s, [])
    else
      ({ isZipOperationRunning := true, buildsStarted := s.buildsStarted + 1 }, [])
  | .buildDone _ =>
    ({ s with isZipOperationRunning := false }, [])

/-- A non-SVG blob of undecodable garbage bytes used in concrete runs. -/
def demoGarbageBlob : Blob :=
  { type := "application/octet-stream", bytes := [77, 90], size := 2
    headOk := true, head := "MZ", textOk := true, text := "MZ" }

/-- Thumbnailing outcomes for `demoGarbageBlob`: the bitmap decode fails,
everything else would succeed. -/
def demoGarbageEnv : ThumbEnv :=
  { decodeOk := false, width := 0, height := 0, svgImageLoadOk := false
    ctxOk := true, encodeOk := true, jpegBase64 := "" }

/-- A small PNG-typed blob used in concrete runs. -/
def demoBlob : Blob :=
  { type := "image/png", bytes := [1, 2, 3], size := 3
    headOk := true, head := "x", textOk := true, text := "x" }

/-- A fully populated record used in concrete runs. -/
def demoImg : CapturedImage :=
  { url := "https://x/a.png", tabId := 7, timestamp := 0
    fullData := some demoBlob, thumbnailData := some "t"
    width := some 0, height := some 0, fileSize := some 3 }


/-- A capture call whose fetch fails (network error / non-ok status). -/
def c1FailEnv : CaptureEnv :=
  { lookupOk := true, fetchResult := none, thumbEnv := demoGarbageEnv
    saveOk := true, now := 0 }

/-- Thumbnailing outcomes in which every host operation succeeds. -/
def demoOkThumbEnv : ThumbEnv :=
  { decodeOk := true, width := 10, height := 10, svgImageLoadOk := true
    ctxOk := true, encodeOk := true, jpegBase64 := "AAA" }

/-- A capture call in which every stage succeeds. -/
def demoCaptureEnv : CaptureEnv :=
  { lookupOk := true, fetchResult := some demoBlob, thumbEnv := demoOkThumbEnv
    saveOk := true, now := 0 }

/-- An HTML payload (fetched body that is not an image). -/
def demoHtmlBlob : Blob :=
  { type := "text/html", bytes := [60], size := 1
    headOk := true, head := "<!doctype html>", textOk := true
    text := "<!doctype html>" }

/-- A capture call that fetches the HTML payload. -/
def demoHtmlEnv : CaptureEnv :=
  { lookupOk := true, fetchResult := some demoHtmlBlob
    thumbEnv := demoGarbageEnv, saveOk := true, now := 0 }

/-- An export environment in which every download completes. -/
def demoExportEnv : ExportEnv :=
  { datePart := "2026-01-01", serPercents := fun _ => [100]
    downloadOk := fun _ => true }

/-- A record with neither `thumbnailData` nor `fullData`. -/
def demoBareImg : CapturedImage :=
  { url := "https://x/bare.png", tabId := 0, timestamp := 0
    fullData := none, thumbnailData := none
    width := none, height := none, fileSize := none }

/-- A record whose only payload is the undecodable garbage blob. -/
def demoGarbageImg : CapturedImage :=
  { url := "https://x/garbage.bin", tabId := 0, timestamp := 0
    fullData := some demoGarbageBlob, thumbnailData := none
    width := none, height := none, fileSize := none }

/-- A `loadImageThumbnailData` run where the get succeeds with no record. -/
def demoLoadEnvNone : LoadThumbEnv :=
  { getResult := .ok none, thumbEnv := demoGarbageEnv, saveOk := true }

/-- A `loadImageThumbnailData` run finding a record with neither field. -/
def demoLoadEnvNoData : LoadThumbEnv :=
  { getResult := .ok (some demoBareImg), thumbEnv := demoGarbageEnv
    saveOk := true }

/-- A `loadImageThumbnailData` run where on-the-fly generation rejects. -/
def demoLoadEnvGenFail : LoadThumbEnv :=
  { getResult := .ok (some demoGarbageImg), thumbEnv := demoGarbageEnv
    saveOk := true }

/-! ## Basic lemmas about `chunkArray` -/

theorem chunkArray_nil {α : Type} (size : Nat) :
    chunkArray ([] : List α) size = [] := by
  rw [chunkArray.eq_def]
  split <;> rfl

theorem chunkArray_cons {α : Type} (a : α) (rest : List α) (size : Nat)
    (h : size ≠ 0) :
    chunkArray (a :: rest) size =
      (a :: rest).take size :: chunkArray ((a :: rest).drop size) size := by
  rw [chunkArray.eq_def]
  simp [h]

theorem chunkArray_singleton_chunk {α : Type} (l : List α) (size : Nat)
    (h0 : size ≠ 0) (hne : l ≠ []) (hle : l.length ≤ size) :
    chunkArray l size = [l] := by
  match l with
  | [] => exact absurd rfl hne
  | a :: rest =>
    rw [chunkArray_cons a rest size h0]
    rw [List.take_of_length_le hle, List.drop_eq_nil_of_le hle, chunkArray_nil]

theorem chunkArray_length_aux {α : Type} (size : Nat) (h : size ≠ 0) :
    ∀ (n : Nat) (arr : List α), arr.length ≤ n →
      (chunkArray arr size).length = (arr.length + size - 1) / size := by
  intro n
  induction n with
  | zero =>
    intro arr harr
    have : arr = [] := List.length_eq_zero.mp (Nat.le_zero.mp harr)
    subst this
    simp [chunkArray_nil, Nat.div_eq_of_lt, Nat.sub_lt_self, Nat.pos_of_ne_zero h]
  | succ n ih =>
    intro arr harr
    match arr with
    | [] =>
      simp [chunkArray_nil, Nat.div_eq_of_lt, Nat.sub_lt_self, Nat.pos_of_ne_zero h]
    | a :: rest =>
      rw [chunkArray_cons a rest size h]
      have hlen : ((a :: rest).drop size).length = (a :: rest).length - size := by
        simp
      have hdle : ((a :: rest).drop size).length ≤ n := by
        simp only [hlen, List.length_cons] at *
        omega
      rw [List.length_cons, ih _ hdle, hlen]
      have hpos : 0 < size := Nat.pos_of_ne_zero h
      rcases le_or_lt (a :: rest).length size with hle | hlt
      · have h1 : (a :: rest).length - size = 0 := Nat.sub_eq_zero_of_le hle
        rw [h1]
        have hlb : size ≤ (a :: rest).length + size - 1 := by
          have : 1 ≤ (a :: rest).length := by simp
          omega
        have hub : (a :: rest).length + size - 1 < 2 * size := by omega
        have hz : (0 + size - 1) / size = 0 := Nat.div_eq_of_lt (by omega)
        have ho : ((a :: rest).length + size - 1) / size = 1 := by
          rw [Nat.div_eq_sub_div hpos hlb, Nat.div_eq_of_lt (by omega)]
        omega
      · have h2 : (a :: rest).length - size + size - 1 = (a :: rest).length - 1 := by
          omega
        rw [h2]
        have h3 : (a :: rest).length + size - 1 = ((a :: rest).length - 1) + size := by
          omega
        rw [h3, Nat.add_div_right _ hpos]

/-- The function `chunkArray` produces `⌈arr.length / size⌉` chunks (as
`(arr.length + size - 1) / size` in natural division). -/
theorem chunkArray_length {α : Type} (arr : List α) (size : Nat) (h : size ≠ 0) :
    (chunkArray arr size).length = (arr.length + size - 1) / size :=
  chunkArray_length_aux size h arr.length arr le_rfl

theorem chunkArray_mem_length_aux {α : Type} (size : Nat) (h : size ≠ 0) :
    ∀ (n : Nat) (arr : List α), arr.length ≤ n →
      ∀ c ∈ chunkArray arr size, c.length ≤ size := by
  intro n
  induction n with
  | zero =>
    intro arr harr c hc
    have : arr = [] := List.length_eq_zero.mp (Nat.le_zero.mp harr)
    subst this
    simp [chunkArray_nil] at hc
  | succ n ih =>
    intro arr harr c hc
    match arr with
    | [] => simp [chunkArray_nil] at hc
    | a :: rest =>
      rw [chunkArray_cons a rest size h] at hc
      rcases List.mem_cons.mp hc with hc | hc
      · subst hc
        simp [Nat.min_le_left]
      · refine ih ((a :: rest).drop size) ?_ c hc
        simp only [List.length_drop, List.length_cons] at *
        omega

/-- Every chunk holds at most `size` records. -/
theorem chunkArray_mem_length {α : Type} (arr : List α) (size : Nat)
    (h : size ≠ 0) : ∀ c ∈ chunkArray arr size, c.length ≤ size :=
  chunkArray_mem_length_aux size h arr.length arr le_rfl

theorem chunkArray_flatten_aux {α : Type} (size : Nat) (h : size ≠ 0) :
    ∀ (n : Nat) (arr : List α), arr.length ≤ n →
      (chunkArray arr size).flatten = arr := by
  intro n
  induction n with
  | zero =>
    intro arr harr
    have : arr = [] := List.length_eq_zero.mp (Nat.le_zero.mp harr)
    subst this
    simp [chunkArray_nil]
  | succ n ih =>
    intro arr harr
    match arr with
    | [] => simp [chunkArray_nil]
    | a :: rest =>
      rw [chunkArray_cons a rest size h]
      have hdle : ((a :: rest).drop size).length ≤ n := by
        simp only [List.length_drop, List.length_cons] at *
        omega
      rw [List.flatten_cons, ih _ hdle, List.take_append_drop]

/-- Concatenating the chunks restores the original list. -/
theorem chunkArray_flatten {α : Type} (arr : List α) (size : Nat)
    (h : size ≠ 0) : (chunkArray arr size).flatten = arr :=
  chunkArray_flatten_aux size h arr.length arr le_rfl

/-- Every chunk is nonempty. -/
theorem chunkArray_mem_ne_nil_aux {α : Type} (size : Nat) (h : size ≠ 0) :
    ∀ (n : Nat) (arr : List α), arr.length ≤ n →
      ∀ c ∈ chunkArray arr size, c ≠ [] := by
  intro n
  induction n with
  | zero =>
    intro arr harr c hc
    have : arr = [] := List.length_eq_zero.mp (Nat.le_zero.mp harr)
    subst this
    simp [chunkArray_nil] at hc
  | succ n ih =>
    intro arr harr c hc
    match arr with
    | [] => simp [chunkArray_nil] at hc
    | a :: rest =>
      rw [chunkArray_cons a rest size h] at hc
      rcases List.mem_cons.mp hc with hc | hc
      · subst hc
        simp [List.take_eq_nil_iff, h]
      · refine ih ((a :: rest).drop size) ?_ c hc
        simp only [List.length_drop, List.length_cons] at *
        omega

/-! ## Entry-count lemmas for the archives -/

theorem zipEntriesAux_length (i : Nat) :
    ∀ (chunk : List CapturedImage) (j : Nat),
      (∀ img ∈ chunk, img.fullData.isSome = true) →
      (zipEntriesAux i j chunk).length = chunk.length := by
  intro chunk
  induction chunk with
  | nil => intro j _; rfl
  | cons img rest ih =>
    intro j hall
    have himg : img.fullData.isSome = true := hall img (by simp)
    match hfd : img.fullData with
    | none => rw [hfd] at himg; simp at himg
    | some blob =>
      have hstep : zipEntriesAux i j (img :: rest) =
          (createFilename (i * zipMaxImagesPerZip + j) (extForImage img blob),
            blob.bytes) :: zipEntriesAux i (j + 1) rest := by
        simp [zipEntriesAux, hfd]
      rw [hstep, List.length_cons, ih (j + 1) (fun x hx => hall x (by simp [hx])),
        List.length_cons]

theorem zipEntriesOfChunk_length (i : Nat) (chunk : List CapturedImage)
    (h : ∀ img ∈ chunk, img.fullData.isSome = true) :
    (zipEntriesOfChunk i chunk).length = chunk.length :=
  zipEntriesAux_length i chunk 0 h

theorem mem_of_mem_enum {α : Type} {l : List α} {p : Nat × α}
    (h : p ∈ l.enum) : p.2 ∈ l := by
  rw [List.mem_enum_iff_getElem?] at h
  rcases List.getElem?_eq_some.mp h with ⟨hlt, heq⟩
  exact heq ▸ List.getElem_mem hlt

/-- Any member of a chunk of `images` is a member of `images`. -/
theorem mem_images_of_mem_chunk {images : List CapturedImage}
    {c : List CapturedImage} {img : CapturedImage}
    (hc : c ∈ chunkArray images zipMaxImagesPerZip) (hi : img ∈ c) :
    img ∈ images := by
  have hflat : img ∈ (chunkArray images zipMaxImagesPerZip).flatten :=
    List.mem_flatten.mpr ⟨c, hc, hi⟩
  rwa [chunkArray_flatten images zipMaxImagesPerZip (by decide)] at hflat

/-- C4.  Chunk partition correctness of `createZipFromCapturedImages`: for
`N` records all carrying a `fullData` blob and the chunk ceiling
`C = ZIP_CONFIG.MAX_IMAGES_PER_ZIP = 10000`, the function produces exactly
`⌈N / C⌉ = (N + C - 1) / C` archive blobs (zero for `N = 0`), each archive
is built from at most `C` records, and the total number of entries across
all archives equals `N`. -/
theorem createZipArchives_chunk_partition (images : List CapturedImage)
    (hall : ∀ img ∈ images, img.fullData.isSome = true) :
    (createZipArchives images).length
        = (images.length + zipMaxImagesPerZip - 1) / zipMaxImagesPerZip ∧
    (∀ a ∈ createZipArchives images, a.length ≤ zipMaxImagesPerZip) ∧
    ((createZipArchives images).map List.length).sum = images.length := by
  have hsz : zipMaxImagesPerZip ≠ 0 := by decide
  refine ⟨?_, ?_, ?_⟩
  · rw [createZipArchives, List.length_map, List.enum_length,
      chunkArray_length images zipMaxImagesPerZip hsz]
  · intro a ha
    obtain ⟨p, hp, rfl⟩ := List.mem_map.mp ha
    have hchunk := mem_of_mem_enum hp
    have hcl := chunkArray_mem_length images zipMaxImagesPerZip hsz p.2 hchunk
    rw [zipEntriesOfChunk_length p.1 p.2
      (fun img hi => hall img (mem_images_of_mem_chunk hchunk hi))]
    exact hcl
  · have hmap : (createZipArchives images).map List.length
        = (chunkArray images zipMaxImagesPerZip).map List.length := by
      rw [createZipArchives, List.map_map]
      have hcong : ∀ p ∈ (chunkArray images zipMaxImagesPerZip).enum,
          (List.length ∘ fun q : Nat × List CapturedImage =>
            zipEntriesOfChunk q.1 q.2) p = (List.length ∘ Prod.snd) p := by
        intro p hp
        have hchunk := mem_of_mem_enum hp
        exact zipEntriesOfChunk_length p.1 p.2
          (fun img hi => hall img (mem_images_of_mem_chunk hchunk hi))
      rw [List.map_congr_left hcong, ← List.map_map, List.enum_map_snd]
    rw [hmap, ← List.length_flatten,
      chunkArray_flatten images zipMaxImagesPerZip hsz]

/-! ## Delivery-loop lemmas -/

/-- When every download completes, the delivery loop resolves with one
`(fileName, blob)` pair per archive, the `i`-th named by `zipFileName`. -/
theorem downloadZipsAux_all_ok (total : Nat) (env : ExportEnv)
    (hok : ∀ i, env.downloadOk i = true) :
    ∀ (archives : List Archive) (j : Nat),
      downloadZipsAux total env j archives =
        .ok ((archives.enumFrom j).map
          fun p => (zipFileName total env.datePart p.1, p.2)) := by
  intro archives
  induction archives with
  | nil => intro j; rfl
  | cons a rest ih =>
    intro j
    simp only [downloadZipsAux, hok j, if_true, ih (j + 1), List.enumFrom,
      List.map_cons]

theorem zipFileName_one (d : String) (k : Nat) :
    zipFileName 1 d k = "captured-images-" ++ d ++ ".zip" := by
  simp [zipFileName]

theorem zipFileName_part (total : Nat) (d : String) (k : Nat) (h : 1 < total) :
    zipFileName total d k
      = "captured-images-" ++ d ++ ("-part-" ++ (toString (k + 1) ++ ".zip")) := by
  simp only [zipFileName, if_pos h, String.append_assoc]

/-- C7.  Empty export: with zero records the export resolves successfully,
makes no `chrome.downloads.download` calls, and zero archive blobs are
produced. -/
theorem handleZipDownload_empty_store :
    (∀ env : ExportEnv, handleZipDownload [] env = Except.ok []) ∧
    createZipArchives [] = [] := by
  constructor
  · intro env; rfl
  · rw [createZipArchives, chunkArray_nil]; rfl

/-- General shape of a fully successful export on a nonempty store: one
download per archive, the `k`-th named `zipFileName`. -/
theorem handleZipDownload_names_general (store : List CapturedImage)
    (env : ExportEnv) (hne : store ≠ []) (hok : ∀ i, env.downloadOk i = true) :
    ∃ L, handleZipDownload store env = Except.ok L ∧
      L.length = (store.length + zipMaxImagesPerZip - 1) / zipMaxImagesPerZip ∧
      ∀ (k : Nat) (hk : k < L.length),
        (L.get ⟨k, hk⟩).1 = zipFileName L.length env.datePart k := by
  have hsz : zipMaxImagesPerZip ≠ 0 := by decide
  have hAlen : (createZipArchives store).length
      = (store.length + zipMaxImagesPerZip - 1) / zipMaxImagesPerZip := by
    rw [createZipArchives, List.length_map, List.enum_length,
      chunkArray_length store zipMaxImagesPerZip hsz]
  have hlen0 : store.length ≠ 0 := fun h => hne (List.length_eq_zero.mp h)
  refine ⟨((createZipArchives store).enumFrom 0).map
    (fun p => (zipFileName (createZipArchives store).length env.datePart p.1,
      p.2)), ?_, ?_, ?_⟩
  · rw [handleZipDownload, if_neg hlen0]
    exact downloadZipsAux_all_ok (createZipArchives store).length env hok
      (createZipArchives store) 0
  · rw [List.length_map, List.enumFrom_length, hAlen]
  · intro k hk
    rw [List.length_map, List.enumFrom_length] at hk
    have hget : (((createZipArchives store).enumFrom 0).map
        (fun p => (zipFileName (createZipArchives store).length env.datePart p.1,
          p.2))).get ⟨k, by simpa using hk⟩
        = (zipFileName (createZipArchives store).length env.datePart
            ((((createZipArchives store).enumFrom 0).get ⟨k, by simpa using hk⟩).1),
          (((createZipArchives store).enumFrom 0).get ⟨k, by simpa using hk⟩).2) := by
      simp
    rw [hget]
    have henum : (((createZipArchives store).enumFrom 0).get ⟨k, by simpa using hk⟩).1
        = k := by
      simp [List.getElem_enumFrom]
    rw [henum]
    simp [List.enumFrom_length]

/-- C8.  Archive naming: for every successful export producing `k`
archives, if `k = 1` the single archive's delivered name is
`captured-images-{date}.zip`, and if `k > 1` the `n`-th archive (1-based)
is named `captured-images-{date}-part-{n}.zip`; in particular a store
holding `C + 1` records with chunk ceiling `C` yields exactly 2 archives
named `...-part-1.zip` and `...-part-2.zip`. -/
theorem handleZipDownload_archive_names :
    (∀ (store : List CapturedImage) (env : ExportEnv),
        store ≠ [] → (∀ i, env.downloadOk i = true) →
        ∃ L, handleZipDownload store env = Except.ok L ∧
          L.length = (store.length + zipMaxImagesPerZip - 1) / zipMaxImagesPerZip ∧
          (L.length = 1 →
            L.map Prod.fst = ["captured-images-" ++ env.datePart ++ ".zip"]) ∧
          (1 < L.length → ∀ (k : Nat) (hk : k < L.length),
            (L.get ⟨k, hk⟩).1
              = "captured-images-" ++ env.datePart
                  ++ ("-part-" ++ (toString (k + 1) ++ ".zip")))) ∧
    (∀ (env : ExportEnv) (img : CapturedImage), (∀ i, env.downloadOk i = true) →
        ∃ L, handleZipDownload (List.replicate (zipMaxImagesPerZip + 1) img) env
            = Except.ok L ∧
          L.map Prod.fst
            = ["captured-images-" ++ env.datePart ++ "-part-1.zip",
               "captured-images-" ++ env.datePart ++ "-part-2.zip"]) := by
  constructor
  · intro store env hne hok
    obtain ⟨L, hrun, hlen, hnames⟩ :=
      handleZipDownload_names_general store env hne hok
    refine ⟨L, hrun, hlen, ?_, ?_⟩
    · intro h1
      obtain ⟨p, hp⟩ := List.length_eq_one.mp h1
      subst hp
      have e0 := hnames 0 (by simp)
      simp only [List.get] at e0
      simp [e0, zipFileName_one]
    · intro hgt k hk
      rw [hnames k hk, zipFileName_part L.length env.datePart k hgt]
  · intro env img hok
    have hne : List.replicate (zipMaxImagesPerZip + 1) img ≠ [] := by
      intro h
      have := congrArg List.length h
      simp [List.length_replicate] at this
    obtain ⟨L, hrun, hlen, hnames⟩ :=
      handleZipDownload_names_general (List.replicate (zipMaxImagesPerZip + 1) img)
        env hne hok
    have h2 : L.length = 2 := by
      rw [hlen, List.length_replicate]
      norm_num [zipMaxImagesPerZip]
    obtain ⟨p, q, hpq⟩ := List.length_eq_two.mp h2
    subst hpq
    refine ⟨[p, q], hrun, ?_⟩
    have e0 := hnames 0 (by simp)
    have e1 := hnames 1 (by simp)
    simp only [List.get, List.length_cons, List.length_nil] at e0 e1
    have t1 : ("-part-" ++ (toString (0 + 1) ++ ".zip") : String) = "-part-1.zip" := by
      decide
    have t2 : ("-part-" ++ (toString (1 + 1) ++ ".zip") : String) = "-part-2.zip" := by
      decide
    rw [zipFileName_part _ _ _ (by norm_num)] at e0
    rw [zipFileName_part _ _ _ (by norm_num)] at e1
    rw [t1] at e0
    rw [t2] at e1
    simp [e0, e1, String.append_assoc]

/-- C6.  A fetched payload whose declared type neither begins with
`image/` nor equals `image/svg+xml` is discarded: the store is unchanged
and the capture resolves without even reaching the `catch` block (the
early `return` is inside the `try` body). -/
theorem fetchAndStoreImage_discards_non_image :
    ∀ (store : List CapturedImage) (url : String) (tabId : Int)
      (env : CaptureEnv) (b : Blob),
      env.fetchResult = some b →
      strStartsWith b.type "image/" = false →
      b.type ≠ "image/svg+xml" →
      fetchAndStoreImage store url tabId env = store ∧
      (env.lookupOk = true →
        fetchAndStoreImageCore store url tabId env = Except.ok store) := by
  intro store url tabId env b hf hsw hnsvg
  have hbne : (b.type != "image/svg+xml") = true := bne_iff_ne.mpr hnsvg
  cases hlk : env.lookupOk with
  | false =>
    constructor
    · simp [fetchAndStoreImage, fetchAndStoreImageCore, hlk]
    · intro h
      exact absurd h (by simp)
  | true =>
    have hcore : fetchAndStoreImageCore store url tabId env = Except.ok store := by
      rw [fetchAndStoreImageCore]
      cases hfind : loadImageByUrl store url with
      | some img => simp [hlk, hfind]
      | none => simp [hlk, hfind, hf, hsw, hbne]
    exact ⟨by simp [fetchAndStoreImage, hcore], fun _ => hcore⟩

/-- C10.  `loadImageThumbnailData` never settles its promise when the get
request succeeds but finds no record, when the record has neither
`thumbnailData` nor `fullData`, or when on-the-fly thumbnail generation
from `fullData` rejects (the `.catch` handler only logs). -/
theorem loadImageThumbnailData_pending_cases :
    ∀ (env : LoadThumbEnv) (img : CapturedImage) (b : Blob),
      (env.getResult = .ok none → loadImageThumbnailData env = .pending) ∧
      (env.getResult = .ok (some img) → img.thumbnailData = none →
        img.fullData = none → loadImageThumbnailData env = .pending) ∧
      (env.getResult = .ok (some img) → img.thumbnailData = none →
        img.fullData = some b →
        (generateThumbnailFromBlob b 50 50 env.thumbEnv).result.isOk = false →
        loadImageThumbnailData env = .pending) := by
  intro env img b
  refine ⟨?_, ?_, ?_⟩
  · intro hget
    simp [loadImageThumbnailData, hget]
  · intro hget hthumb hfull
    simp [loadImageThumbnailData, hget, hthumb, hfull, truthyStr]
  · intro hget hthumb hfull hgen
    cases hres : (generateThumbnailFromBlob b 50 50 env.thumbEnv).result with
    | ok t => rw [hres] at hgen; simp [Except.isOk, Except.toBool] at hgen
    | error e =>
      simp [loadImageThumbnailData, hget, hthumb, hfull, truthyStr, hres]

/-! ## Data-URI framing helpers -/

theorem dataUrl_jpeg_split (x : String) :
    ("data:image/jpeg;base64," ++ x) = "data:image/" ++ ("jpeg;base64," ++ x) := by
  have h : ("data:image/" ++ "jpeg;base64," : String) = "data:image/jpeg;base64," := by
    decide
  rw [← h, String.append_assoc]

theorem dataUrl_svg_split (x : String) :
    svgDataUrl x = "data:image/" ++ ("svg+xml;charset=utf-8," ++ x) := by
  have h : ("data:image/" ++ "svg+xml;charset=utf-8," : String)
      = "data:image/svg+xml;charset=utf-8," := by decide
  rw [svgDataUrl, encodeURIComponent, ← h, String.append_assoc]

/-- The placeholder with its `data:image/` prefix split off. -/
def errorPlaceholderRest : String :=
  "svg+xml;charset=utf-8,<svg xmlns=\"http://www.w3.org/2000/svg\" width=\"50\" height=\"50\"><rect width=\"100%\" height=\"100%\" fill=\"#ccc\"/><text x=\"50%\" y=\"50%\" dominant-baseline=\"middle\" text-anchor=\"middle\" font-size=\"10\">Error</text></svg>"

set_option maxRecDepth 4096 in
theorem errorPlaceholder_split :
    errorPlaceholder = "data:image/" ++ errorPlaceholderRest := by
  decide

/-- C2 counterexample.  The claim says `generateThumbnailFromBlob` never
rejects, for garbage bytes included; but a blob that is neither declared
nor sniffed as SVG and whose `createImageBitmap` decode fails makes the
source rethrow the decode error, so the promise rejects. -/
theorem generateThumbnailFromBlob_rejects_on_garbage :
    (generateThumbnailFromBlob demoGarbageBlob 50 50 demoGarbageEnv).result
      = Except.error "createImageBitmap failed" := by decide

/-- C2 amended.  `generateThumbnailFromBlob` resolves with a data URI
(always beginning `data:image/`) whenever the bitmap decode succeeds and a
2d context is available, or the input is detected as SVG with readable
text and no bitmap decode intervenes with a failing context; it is *not*
total over garbage bytes (see the counterexample). -/
theorem generateThumbnailFromBlob_resolves_when_decodable_or_svg :
    ∀ (b : Blob) (env : ThumbEnv),
      (env.decodeOk = true ∨ (isProbablySvg b = true ∧ b.textOk = true)) →
      (env.ctxOk = true ∨ (env.decodeOk = false ∧ env.svgImageLoadOk = false)) →
      ∃ rest, (generateThumbnailFromBlob b 50 50 env).result
        = Except.ok ("data:image/" ++ rest) := by
  intro b env h1 h2
  cases hd : env.decodeOk with
  | true =>
    have hctx : env.ctxOk = true := by
      rcases h2 with h2 | ⟨h2, _⟩
      · exact h2
      · rw [hd] at h2; exact absurd h2 (by simp)
    rw [generateThumbnailFromBlob]
    simp only [hd, if_true, thumbFromBitmap, hctx, Bool.not_true]
    by_cases henc : env.encodeOk
    · exact ⟨"jpeg;base64," ++ env.jpegBase64, by simp [henc, dataUrl_jpeg_split]⟩
    · by_cases hsvgt : (isProbablySvg b && b.textOk) = true
      · exact ⟨"svg+xml;charset=utf-8," ++ b.text,
          by simp [henc, hsvgt, dataUrl_svg_split]⟩
      · refine ⟨errorPlaceholderRest, ?_⟩
        simp only [henc, hsvgt, Bool.false_eq_true, if_false, if_neg]
        rw [errorPlaceholder_split]
  | false =>
    have hsvg : isProbablySvg b = true ∧ b.textOk = true := by
      rcases h1 with h1 | h1
      · rw [hd] at h1; exact absurd h1 (by simp)
      · exact h1
    rw [generateThumbnailFromBlob]
    simp only [hd, hsvg.1, hsvg.2, Bool.not_true, Bool.false_eq_true, if_false,
      Bool.not_false, if_true]
    by_cases hload : env.svgImageLoadOk
    · have hctx : env.ctxOk = true := by
        rcases h2 with h2 | ⟨_, h2⟩
        · exact h2
        · rw [hload] at h2; exact absurd h2 (by simp)
      simp only [hload, if_true, thumbFromBitmap, hctx, Bool.not_true,
        Bool.false_eq_true, if_false]
      by_cases henc : env.encodeOk
      · exact ⟨"jpeg;base64," ++ env.jpegBase64, by simp [henc, dataUrl_jpeg_split]⟩
      · refine ⟨"svg+xml;charset=utf-8," ++ b.text, ?_⟩
        simp [henc, hsvg.1, hsvg.2, dataUrl_svg_split]
    · refine ⟨"svg+xml;charset=utf-8," ++ b.text, ?_⟩
      simp [hload, dataUrl_svg_split]

/-- The function `thumbDims` leaves dimensions within bounds unchanged. -/
theorem thumbDims_small (w h maxW maxH : Nat) (hw : w ≤ maxW) (hh : h ≤ maxH) :
    thumbDims w h maxW maxH = ((w : Int), (h : Int)) := by
  rw [thumbDims]
  rcases Nat.lt_or_ge h w with hgt | hge
  · rw [if_pos hgt, if_neg (by omega)]
  · rw [if_neg (by omega), if_neg (by omega)]

/-- C9.  Thumbnail scaling preserves aspect ratio with the default bounds
`maxWidth = maxHeight = 50`: dimensions at most 50 are unchanged, else the
longer dimension becomes exactly 50 and the shorter becomes
`round(shorter * 50 / longer)`; and on the encode path the canvas is
serialized with `convertToBlob({type: "image/jpeg", quality: 0.8})` at the
dimensions computed by `thumbDims`. -/
theorem thumbDims_aspect_and_jpeg_quality :
    ∀ (w h : Nat), 0 < w → 0 < h →
      ((max w h ≤ 50 → thumbDims w h 50 50 = ((w : Int), (h : Int))) ∧
       (50 < max w h → h ≤ w →
          thumbDims w h 50 50 = (50, round ((h : ℚ) * 50 / (w : ℚ)))) ∧
       (50 < max w h → w ≤ h →
          thumbDims w h 50 50 = (round ((w : ℚ) * 50 / (h : ℚ)), 50))) ∧
      (∀ (b : Blob) (env : ThumbEnv), env.decodeOk = true → env.ctxOk = true →
        (generateThumbnailFromBlob b 50 50 env).encodeCall
            = some ("image/jpeg", 4/5) ∧
        (generateThumbnailFromBlob b 50 50 env).dims
            = some (thumbDims env.width env.height 50 50)) := by
  intro w h hw hh
  refine ⟨⟨?_, ?_, ?_⟩, ?_⟩
  · intro hmax
    exact thumbDims_small w h 50 50
      (le_trans (Nat.le_max_left w h) hmax)
      (le_trans (Nat.le_max_right w h) hmax)
  · intro hmax hle
    have hw50 : w > 50 := by
      have := Nat.max_eq_left hle
      omega
    have hwq : ((w : ℚ)) ≠ 0 := Nat.cast_ne_zero.mpr (by omega)
    rcases lt_or_eq_of_le hle with hlt | heq
    · rw [thumbDims, if_pos hlt, if_pos hw50]
      simp only [Prod.mk.injEq]
      refine ⟨by norm_num, ?_⟩
      congr 1
      push_cast
      rw [mul_div_assoc]
    · subst heq
      rw [thumbDims, if_neg (lt_irrefl h), if_pos hw50]
      simp only [Prod.mk.injEq]
      constructor
      · have e1 : (h : ℚ) * (((50 : Nat) : ℚ) / (h : ℚ)) = ((50 : Nat) : ℚ) := by
          field_simp
        rw [e1]
        push_cast
        norm_num [round_eq]
      · have e2 : (h : ℚ) * 50 / (h : ℚ) = ((50 : Nat) : ℚ) := by
          field_simp
        rw [e2]
        push_cast
        norm_num [round_eq]
  · intro hmax hle
    have hh50 : h > 50 := by
      have := Nat.max_eq_right hle
      omega
    have hhq : ((h : ℚ)) ≠ 0 := Nat.cast_ne_zero.mpr (by omega)
    rcases lt_or_eq_of_le hle with hlt | heq
    · rw [thumbDims, if_neg (by omega : ¬ w > h), if_pos hh50]
      simp only [Prod.mk.injEq]
      refine ⟨?_, by norm_num⟩
      congr 1
      push_cast
      rw [mul_div_assoc]
    · subst heq
      rw [thumbDims, if_neg (lt_irrefl w), if_pos hh50]
      simp only [Prod.mk.injEq]
      constructor
      · have e1 : (w : ℚ) * (((50 : Nat) : ℚ) / (w : ℚ)) = ((50 : Nat) : ℚ) := by
          field_simp
        have e2 : (w : ℚ) * 50 / (w : ℚ) = ((50 : Nat) : ℚ) := by
          field_simp
        rw [e1, e2]
      · norm_num
  · intro b env hd hc
    rw [generateThumbnailFromBlob]
    simp only [hd, if_true, thumbFromBitmap, hc, Bool.not_true,
      Bool.false_eq_true, if_false]
    split_ifs <;> simp

/-! ## Counting lemmas for the store -/

theorem countUrl_zero_iff (store : List CapturedImage) (url : String) :
    countUrl store url = 0 ↔ loadImageByUrl store url = none := by
  rw [countUrl, loadImageByUrl, List.length_eq_zero, List.filter_eq_nil_iff,
    List.find?_eq_none]

theorem countUrl_pos_of_found (store : List CapturedImage) (url : String)
    (img : CapturedImage) (h : loadImageByUrl store url = some img) :
    1 ≤ countUrl store url := by
  by_contra hc
  have h0 : countUrl store url = 0 := by omega
  rw [countUrl_zero_iff] at h0
  rw [h] at h0
  exact Option.noConfusion h0

theorem countUrl_append_rec (store : List CapturedImage) (url : String)
    (rec : CapturedImage) (hrec : rec.url = url) :
    countUrl (store ++ [rec]) url = countUrl store url + 1 := by
  rw [countUrl, countUrl, List.filter_append, List.length_append]
  have : (rec.url == url) = true := beq_iff_eq.mpr hrec
  simp [this]

/-- When no record for `url` exists, a capture call either leaves the
store unchanged (when any stage fails or the payload is rejected) or
appends exactly one new record keyed `url` (when it fully succeeds). -/
theorem fetchAndStoreImage_not_found (store : List CapturedImage)
    (url : String) (tabId : Int) (env : CaptureEnv)
    (hfind : loadImageByUrl store url = none) :
    (captureSucceeds env = true →
      ∃ rec, rec.url = url ∧
        fetchAndStoreImage store url tabId env = store ++ [rec]) ∧
    (captureSucceeds env = false →
      fetchAndStoreImage store url tabId env = store) := by
  cases hlk : env.lookupOk with
  | false =>
    constructor
    · intro hs
      simp [captureSucceeds, hlk] at hs
    · intro _
      simp [fetchAndStoreImage, fetchAndStoreImageCore, hlk]
  | true =>
    cases hf : env.fetchResult with
    | none =>
      constructor
      · intro hs
        simp [captureSucceeds, hlk, hf] at hs
      · intro _
        simp [fetchAndStoreImage, fetchAndStoreImageCore, hlk, hfind, hf]
    | some b =>
      cases hguard : (!(strStartsWith b.type "image/") && b.type != "image/svg+xml") with
      | true =>
        have hnot : ((strStartsWith b.type "image/" || b.type == "image/svg+xml")) = false := by
          rcases Bool.and_eq_true_iff.mp hguard with ⟨hg1, hg2⟩
          simp only [Bool.not_eq_true'] at hg1
          simp only [Bool.or_eq_false_iff]
          refine ⟨hg1, ?_⟩
          cases hbeq : (b.type == "image/svg+xml") with
          | false => rfl
          | true =>
            exfalso
            rw [beq_iff_eq.mp hbeq] at hg2
            simp at hg2
        constructor
        · intro hs
          simp [captureSucceeds, hlk, hf, hnot] at hs
        · intro _
          simp [fetchAndStoreImage, fetchAndStoreImageCore, hlk, hfind, hf, hguard]
      | false =>
        have horb : ((strStartsWith b.type "image/" || b.type == "image/svg+xml")) = true := by
          cases hsw : strStartsWith b.type "image/" with
          | true => simp [hsw]
          | false =>
            have hbne : (b.type != "image/svg+xml") = false := by
              simpa [hsw] using hguard
            simp only [Bool.or_eq_true_iff, hsw]
            right
            simpa [bne] using hbne
        cases hres : (generateThumbnailFromBlob b 50 50 env.thumbEnv).result with
        | error e =>
          constructor
          · intro hs
            simp [captureSucceeds, hlk, hf, hres, Except.isOk, Except.toBool] at hs
          · intro _
            simp [fetchAndStoreImage, fetchAndStoreImageCore, hlk, hfind, hf,
              hguard, hres]
        | ok thumb =>
          cases hsv : env.saveOk with
          | false =>
            constructor
            · intro hs
              simp [captureSucceeds, hlk, hf, hsv] at hs
            · intro _
              simp [fetchAndStoreImage, fetchAndStoreImageCore, hlk, hfind, hf,
                hguard, hres, hsv]
          | true =>
            constructor
            · intro _
              refine ⟨{ url := url, tabId := tabId, timestamp := env.now
                        fullData := some b, thumbnailData := some thumb
                        width := some 0, height := some 0
                        fileSize := some b.size }, rfl, ?_⟩
              have hany : (store.any fun r => r.url == url) = false := by
                have hall := List.find?_eq_none.mp hfind
                rw [List.any_eq_false]
                intro r hr
                simpa using hall r hr
              simp [fetchAndStoreImage, fetchAndStoreImageCore, hlk, hfind, hf,
                hguard, hres, hsv, saveImage, hany]
            · intro hs
              simp [captureSucceeds, hlk, hf, hsv, hres, horb, Except.isOk,
                Except.toBool] at hs

/-- A capture for a url that already has a record is a no-op on the store
(the dedup check returns early). -/
theorem fetchAndStoreImage_found (store : List CapturedImage) (url : String)
    (tabId : Int) (env : CaptureEnv) (img : CapturedImage)
    (hfind : loadImageByUrl store url = some img) :
    fetchAndStoreImage store url tabId env = store := by
  cases hlk : env.lookupOk <;>
    simp [fetchAndStoreImage, fetchAndStoreImageCore, hlk, hfind]

/-- One capture step preserves "at most one record per url", keeps an
existing unique record unique, and installs exactly one record when the
call fully succeeds. -/
theorem fetchAndStoreImage_count (store : List CapturedImage) (url : String)
    (tabId : Int) (env : CaptureEnv) (hle : countUrl store url ≤ 1) :
    countUrl (fetchAndStoreImage store url tabId env) url ≤ 1 ∧
    (countUrl store url = 1 →
      countUrl (fetchAndStoreImage store url tabId env) url = 1) ∧
    (captureSucceeds env = true →
      countUrl (fetchAndStoreImage store url tabId env) url = 1) := by
  cases hfind : loadImageByUrl store url with
  | some img =>
    have heq := fetchAndStoreImage_found store url tabId env img hfind
    have hge := countUrl_pos_of_found store url img hfind
    rw [heq]
    exact ⟨hle, fun h => h, fun _ => by omega⟩
  | none =>
    have h0 : countUrl store url = 0 := (countUrl_zero_iff store url).mpr hfind
    obtain ⟨hsucc, hfail⟩ := fetchAndStoreImage_not_found store url tabId env hfind
    cases hs : captureSucceeds env with
    | true =>
      obtain ⟨rec, hrec, heq⟩ := hsucc hs
      rw [heq, countUrl_append_rec store url rec hrec, h0]
      exact ⟨by omega, fun h => by omega, fun _ => rfl⟩
    | false =>
      rw [hfail hs]
      refine ⟨hle, fun h1 => by omega, fun ht => ?_⟩
      exact absurd ht (by simp)

/-- A capture step cannot create a record when the call does not fully
succeed: from a store without a record for `url`, a failing call leaves
the count at zero. -/
theorem fetchAndStoreImage_count_zero (store : List CapturedImage)
    (url : String) (tabId : Int) (env : CaptureEnv)
    (h0 : countUrl store url = 0) (hf : captureSucceeds env = false) :
    countUrl (fetchAndStoreImage store url tabId env) url = 0 := by
  have hfind := (countUrl_zero_iff store url).mp h0
  obtain ⟨_, hfail⟩ := fetchAndStoreImage_not_found store url tabId env hfind
  rw [hfail hf]
  exact h0

/-- A sequence consisting only of failing calls stores nothing: the
count for `url` stays at zero. -/
theorem runCaptures_count_zero :
    ∀ (envs : List CaptureEnv) (store : List CapturedImage) (url : String)
      (tabId : Int), countUrl store url = 0 →
      (∀ e ∈ envs, captureSucceeds e = false) →
      countUrl (runCaptures store url tabId envs) url = 0 := by
  intro envs
  induction envs with
  | nil =>
    intro store url tabId h0 _
    exact h0
  | cons e rest ih =>
    intro store url tabId h0 hall
    have hrun : runCaptures store url tabId (e :: rest)
        = runCaptures (fetchAndStoreImage store url tabId e) url tabId rest := rfl
    rw [hrun]
    exact ih (fetchAndStoreImage store url tabId e) url tabId
      (fetchAndStoreImage_count_zero store url tabId e h0 (hall e (by simp)))
      (fun e' he' => hall e' (by simp [he']))

/-- Forward direction: at most one record is preserved, and an existing
record or one fully successful call gives exactly one. -/
theorem runCaptures_count_aux :
    ∀ (envs : List CaptureEnv) (store : List CapturedImage) (url : String)
      (tabId : Int), countUrl store url ≤ 1 →
      countUrl (runCaptures store url tabId envs) url ≤ 1 ∧
      ((countUrl store url = 1 ∨ ∃ e ∈ envs, captureSucceeds e = true) →
        countUrl (runCaptures store url tabId envs) url = 1) := by
  intro envs
  induction envs with
  | nil =>
    intro store url tabId hle
    refine ⟨hle, ?_⟩
    rintro (h1 | ⟨e, he, _⟩)
    · exact h1
    · exact absurd he (by simp)
  | cons e rest ih =>
    intro store url tabId hle
    have hstep := fetchAndStoreImage_count store url tabId e hle
    have hrun : runCaptures store url tabId (e :: rest)
        = runCaptures (fetchAndStoreImage store url tabId e) url tabId rest := rfl
    obtain ⟨ih1, ih2⟩ := ih (fetchAndStoreImage store url tabId e) url tabId hstep.1
    refine ⟨hrun ▸ ih1, ?_⟩
    intro h
    rw [hrun]
    rcases h with h1 | ⟨e', he', hse'⟩
    · exact ih2 (Or.inl (hstep.2.1 h1))
    · rcases List.mem_cons.mp he' with heq | hmem
      · subst heq
        exact ih2 (Or.inl (hstep.2.2 hse'))
      · exact ih2 (Or.inr ⟨e', hmem, hse'⟩)

/-- C1 amended.  Starting from a store holding at most one record for
`url`, any sequence of settled `fetchAndStoreImage(url, tabId)` calls
leaves at most one record for `url` — repeated captures never create a
second record — and leaves exactly one *iff* a record was already present
or at least one call fully succeeds (store read, fetch of an image-typed
payload, thumbnailing and save); in particular a sequence consisting only
of failing calls, starting from a store without the record, settles with
zero records for `url`, which is why the original "exactly one, always"
phrasing fails. -/
theorem runCaptures_at_most_one_record :
    ∀ (envs : List CaptureEnv) (store : List CapturedImage) (url : String)
      (tabId : Int), countUrl store url ≤ 1 →
      countUrl (runCaptures store url tabId envs) url ≤ 1 ∧
      (countUrl (runCaptures store url tabId envs) url = 1 ↔
        (countUrl store url = 1 ∨ ∃ e ∈ envs, captureSucceeds e = true)) ∧
      ((countUrl store url = 0 ∧ ∀ e ∈ envs, captureSucceeds e = false) →
        countUrl (runCaptures store url tabId envs) url = 0) := by
  intro envs store url tabId hle
  obtain ⟨haux1, haux2⟩ := runCaptures_count_aux envs store url tabId hle
  refine ⟨haux1, ⟨?_, haux2⟩, ?_⟩
  · intro hone
    by_contra hnot
    push_neg at hnot
    obtain ⟨hne1, hnosucc⟩ := hnot
    have h0 : countUrl store url = 0 := by omega
    have hallfail : ∀ e ∈ envs, captureSucceeds e = false := by
      intro e he
      cases hs : captureSucceeds e with
      | false => rfl
      | true => exact absurd hs (hnosucc e he)
    have hzero := runCaptures_count_zero envs store url tabId h0 hallfail
    omega
  · intro ⟨h0, hallfail⟩
    exact runCaptures_count_zero envs store url tabId h0 hallfail

/-- C1 counterexample.  The claim says the store contains *exactly one*
record for the url after every sequence of settled capture calls; but a
single call whose fetch fails settles (the error is caught and only
logged) with zero records stored. -/
theorem runCaptures_failed_capture_leaves_no_record :
    countUrl (runCaptures [] "https://x/a.png" 7 [c1FailEnv]) "https://x/a.png"
      = 0 := by decide

/-- C3 counterexample.  The claim says a `downloadAllAsZip` context-menu
click arriving while `isZipOperationRunning` is `true` is "rejected
immediately with an already-running error response"; but that code path
only executes `return;` — the step emits no response at all (and starts
nothing). -/
theorem zipStep_ctx_click_while_running_no_response :
    zipStep { isZipOperationRunning := true, buildsStarted := 1 }
        ZipEvent.ctxZipClick
      = ({ isZipOperationRunning := true, buildsStarted := 1 }, []) := by
  decide

/-- C3 amended.  While the single-flight flag is set, a
`ZIP_AND_DOWNLOAD_ALL_IMAGES` message is rejected immediately with the
already-running error response and starts no second build; a
`downloadAllAsZip` context-menu click is silently ignored (no response)
and also starts no second build; and the flag is cleared when the running
export completes or fails. -/
theorem zipStep_single_flight_guard :
    ∀ s : BgZipState, s.isZipOperationRunning = true →
      zipStep s ZipEvent.msgZipRequest
          = (s, [{ success := false, error := some zipAlreadyRunningError }]) ∧
      zipStep s ZipEvent.ctxZipClick = (s, []) ∧
      (∀ b, (zipStep s (ZipEvent.buildDone b)).1.isZipOperationRunning = false ∧
            (zipStep s (ZipEvent.buildDone b)).1.buildsStarted
              = s.buildsStarted) := by
  intro s hs
  refine ⟨?_, ?_, fun b => ⟨rfl, rfl⟩⟩ <;> simp [zipStep, hs]

/-! ## Progress monotonicity lemmas -/

/-- Rounding (JS `Math.round`, modelled by `round` on `ℚ`) is monotone. -/
theorem round_mono_le {q p : ℚ} (h : q ≤ p) : round q ≤ round p := by
  rw [round_eq, round_eq]
  exact Int.floor_le_floor (by linarith)

theorem recordProgressVal_mono (K i len : Nat) {j j' : Nat} (h : j ≤ j') :
    recordProgressVal K i len j ≤ recordProgressVal K i len j' := by
  unfold recordProgressVal
  apply round_mono_le
  have h30 : ((j : ℚ) / (len : ℚ)) * 30 ≤ ((j' : ℚ) / (len : ℚ)) * 30 := by
    apply mul_le_mul_of_nonneg_right _ (by norm_num)
    rw [div_eq_mul_inv, div_eq_mul_inv]
    exact mul_le_mul_of_nonneg_right (by exact_mod_cast h)
      (inv_nonneg.mpr (Nat.cast_nonneg len))
  have hr := round_mono_le h30
  apply add_le_add_left
  rw [div_eq_mul_inv, div_eq_mul_inv]
  exact mul_le_mul_of_nonneg_right (by exact_mod_cast hr)
    (inv_nonneg.mpr (Nat.cast_nonneg K))

theorem perRecordAux_sorted (K i len : Nat) :
    ∀ (chunk : List CapturedImage) (j : Nat),
      List.Sorted (· ≤ ·) (perRecordAux K i len j chunk) ∧
      (∀ v ∈ perRecordAux K i len j chunk, recordProgressVal K i len j ≤ v) := by
  intro chunk
  induction chunk with
  | nil =>
    intro j
    exact ⟨List.sorted_nil, by simp [perRecordAux]⟩
  | cons img rest ih =>
    intro j
    obtain ⟨ihs, ihb⟩ := ih (j + 1)
    have hmono : recordProgressVal K i len j ≤ recordProgressVal K i len (j + 1) :=
      recordProgressVal_mono K i len (by omega)
    by_cases h1 : img.fullData.isSome = true
    · by_cases h2 : j % max 1 (len / 10) = 0
      · have hshape : perRecordAux K i len j (img :: rest)
            = recordProgressVal K i len j :: perRecordAux K i len (j + 1) rest := by
          simp [perRecordAux, h1, h2]
        rw [hshape]
        constructor
        · rw [List.sorted_cons]
          exact ⟨fun b hb => le_trans hmono (ihb b hb), ihs⟩
        · intro v hv
          rcases List.mem_cons.mp hv with hv | hv
          · exact le_of_eq hv.symm
          · exact le_trans hmono (ihb v hv)
      · have hshape : perRecordAux K i len j (img :: rest)
            = perRecordAux K i len (j + 1) rest := by
          simp [perRecordAux, h1, h2]
        rw [hshape]
        exact ⟨ihs, fun v hv => le_trans hmono (ihb v hv)⟩
    · have hshape : perRecordAux K i len j (img :: rest)
          = perRecordAux K i len (j + 1) rest := by
        simp [perRecordAux, h1]
      rw [hshape]
      exact ⟨ihs, fun v hv => le_trans hmono (ihb v hv)⟩

theorem serEvents_val_mono (K i : Nat) {a b : ℚ} (h : a ≤ b) :
    round (((i : ℚ) * 100 + ((round a : Int) : ℚ)) / (K : ℚ))
      ≤ round (((i : ℚ) * 100 + ((round b : Int) : ℚ)) / (K : ℚ)) := by
  apply round_mono_le
  rw [div_eq_mul_inv, div_eq_mul_inv]
  apply mul_le_mul_of_nonneg_right _ (inv_nonneg.mpr (Nat.cast_nonneg K))
  apply add_le_add_left
  exact_mod_cast round_mono_le h

/-- C5 amended.  During the serialization phase of chunk `i` each reported
value equals `round((i * 100 + chunkLocalPercent) / totalChunks)` with
`chunkLocalPercent = round(metadata.percent)`, and the reports are
monotonically nondecreasing *within* the per-record phase and *within* the
serialization phase (given nondecreasing archiver percents); but the
packaging report `round(((i + 0.5) * 100) / totalChunks)` emitted between
the two phases can exceed the first serialization reports, so the overall
sequence is not monotone (see the counterexample). -/
theorem zipProgress_phase_monotonicity :
    ∀ (K i : Nat) (chunk : List CapturedImage) (serP : List ℚ),
      List.Sorted (· ≤ ·) serP →
      List.Sorted (· ≤ ·) (perRecordEvents K i chunk) ∧
      List.Sorted (· ≤ ·) (serEvents K i serP) ∧
      serEvents K i serP
        = serP.map (fun p =>
            round (((i : ℚ) * 100 + ((round p : Int) : ℚ)) / (K : ℚ))) ∧
      chunkProgressEvents K i chunk serP
        = perRecordEvents K i chunk
            ++ [round ((((i : ℚ) + 1/2) * 100) / (K : ℚ))]
            ++ serEvents K i serP
            ++ [round ((((i : ℚ) + 1) / (K : ℚ)) * 100)] := by
  intro K i chunk serP hser
  refine ⟨(perRecordAux_sorted K i chunk.length chunk 0).1, ?_, rfl, rfl⟩
  exact List.Pairwise.map _ (fun a b hab => serEvents_val_mono K i hab) hser

/-- C5 counterexample.  One chunk of one record with archiver percents
`[10, 100]`: the code reports `[0, 0, 50, 10, 100, 100]` — the packaging
report 50 is followed by the serialization report 10, so the reported
sequence is not monotonically increasing. -/
theorem createZipProgress_not_monotone :
    createZipProgress [demoImg] (fun _ => [10, 100])
        = [0, 0, 50, 10, 100, 100] ∧
    ¬ List.Sorted (· ≤ ·) (createZipProgress [demoImg] (fun _ => [10, 100])) := by
  have hchunk : chunkArray [demoImg] zipMaxImagesPerZip = [[demoImg]] := by
    rw [chunkArray_singleton_chunk] <;> simp [zipMaxImagesPerZip]
  have h : createZipProgress [demoImg] (fun _ => [10, 100])
      = [0, 0, 50, 10, 100, 100] := by
    rw [createZipProgress]
    simp only [hchunk]
    simp [chunkProgressEvents, perRecordEvents, perRecordAux, recordProgressVal,
      serEvents, demoImg, demoBlob]
    norm_num [round_eq]
  refine ⟨h, ?_⟩
  rw [h]
  decide

/-! ## Witnesses: the hypothesised theorems evaluated at concrete inputs -/

/-- Witness for the C1 amended theorem at an empty store and one fully
successful capture call. -/
theorem runCaptures_at_most_one_record_witness :
    countUrl (runCaptures [] "https://x/a.png" 7 [demoCaptureEnv])
        "https://x/a.png" ≤ 1 ∧
    (countUrl (runCaptures [] "https://x/a.png" 7 [demoCaptureEnv])
        "https://x/a.png" = 1 ↔
      (countUrl ([] : List CapturedImage) "https://x/a.png" = 1 ∨
        ∃ e ∈ [demoCaptureEnv], captureSucceeds e = true)) ∧
    ((countUrl ([] : List CapturedImage) "https://x/a.png" = 0 ∧
        ∀ e ∈ [demoCaptureEnv], captureSucceeds e = false) →
      countUrl (runCaptures [] "https://x/a.png" 7 [demoCaptureEnv])
          "https://x/a.png" = 0) :=
  runCaptures_at_most_one_record [demoCaptureEnv] [] "https://x/a.png" 7
    (by decide)

/-- Witness for the C2 amended theorem at a decodable raster blob. -/
theorem generateThumbnailFromBlob_resolves_witness :
    ∃ rest, (generateThumbnailFromBlob demoBlob 50 50 demoOkThumbEnv).result
      = Except.ok ("data:image/" ++ rest) :=
  generateThumbnailFromBlob_resolves_when_decodable_or_svg demoBlob
    demoOkThumbEnv (Or.inl rfl) (Or.inl rfl)

/-- Witness for the C3 amended theorem at a state with the flag set. -/
theorem zipStep_single_flight_guard_witness :
    zipStep { isZipOperationRunning := true, buildsStarted := 1 }
        ZipEvent.msgZipRequest
      = ({ isZipOperationRunning := true, buildsStarted := 1 },
         [{ success := false, error := some zipAlreadyRunningError }]) ∧
    zipStep { isZipOperationRunning := true, buildsStarted := 1 }
        ZipEvent.ctxZipClick
      = ({ isZipOperationRunning := true, buildsStarted := 1 }, []) ∧
    (∀ b, (zipStep { isZipOperationRunning := true, buildsStarted := 1 }
            (ZipEvent.buildDone b)).1.isZipOperationRunning = false ∧
          (zipStep { isZipOperationRunning := true, buildsStarted := 1 }
            (ZipEvent.buildDone b)).1.buildsStarted = 1) :=
  zipStep_single_flight_guard
    { isZipOperationRunning := true, buildsStarted := 1 } rfl

/-- Witness for the C4 theorem at a one-record store. -/
theorem createZipArchives_chunk_partition_witness :
    (createZipArchives [demoImg]).length
        = ([demoImg].length + zipMaxImagesPerZip - 1) / zipMaxImagesPerZip ∧
    (∀ a ∈ createZipArchives [demoImg], a.length ≤ zipMaxImagesPerZip) ∧
    ((createZipArchives [demoImg]).map List.length).sum = [demoImg].length :=
  createZipArchives_chunk_partition [demoImg] (by decide)

/-- Witness for the C5 amended theorem at one chunk of one record with
archiver percents `[10, 100]`. -/
theorem zipProgress_phase_monotonicity_witness :
    List.Sorted (· ≤ ·) (perRecordEvents 1 0 [demoImg]) ∧
    List.Sorted (· ≤ ·) (serEvents 1 0 [10, 100]) ∧
    serEvents 1 0 [10, 100]
      = [(10 : ℚ), 100].map (fun p =>
          round (((0 : ℚ) * 100 + ((round p : Int) : ℚ)) / ((1 : Nat) : ℚ))) ∧
    chunkProgressEvents 1 0 [demoImg] [10, 100]
      = perRecordEvents 1 0 [demoImg]
          ++ [round ((((0 : ℚ) + 1/2) * 100) / ((1 : Nat) : ℚ))]
          ++ serEvents 1 0 [10, 100]
          ++ [round ((((0 : ℚ) + 1) / ((1 : Nat) : ℚ)) * 100)] :=
  zipProgress_phase_monotonicity 1 0 [demoImg] [10, 100]
    (by simp [List.sorted_cons]; norm_num)

/-- Witness for the C6 theorem at an HTML payload. -/
theorem fetchAndStoreImage_discards_non_image_witness :
    fetchAndStoreImage [] "https://x/page" 0 demoHtmlEnv = [] ∧
    (demoHtmlEnv.lookupOk = true →
      fetchAndStoreImageCore [] "https://x/page" 0 demoHtmlEnv
        = Except.ok []) :=
  fetchAndStoreImage_discards_non_image [] "https://x/page" 0 demoHtmlEnv
    demoHtmlBlob rfl (by decide) (by decide)

/-- Witness for the C8 theorem at a one-record store with every download
completing. -/
theorem handleZipDownload_archive_names_witness :
    ∃ L, handleZipDownload [demoImg] demoExportEnv = Except.ok L ∧
      L.length = ([demoImg].length + zipMaxImagesPerZip - 1) / zipMaxImagesPerZip ∧
      (L.length = 1 →
        L.map Prod.fst
          = ["captured-images-" ++ demoExportEnv.datePart ++ ".zip"]) ∧
      (1 < L.length → ∀ (k : Nat) (hk : k < L.length),
        (L.get ⟨k, hk⟩).1
          = "captured-images-" ++ demoExportEnv.datePart
              ++ ("-part-" ++ (toString (k + 1) ++ ".zip"))) :=
  handleZipDownload_archive_names.1 [demoImg] demoExportEnv (by decide)
    (fun _ => rfl)

/-- Witness for the C9 theorem at a 100×60 source image and the jpeg
parameters of a successful decode. -/
theorem thumbDims_aspect_and_jpeg_quality_witness :
    ((max 100 60 ≤ 50 → thumbDims 100 60 50 50 = ((100 : Int), (60 : Int))) ∧
     (50 < max 100 60 → 60 ≤ 100 →
        thumbDims 100 60 50 50 = (50, round (((60 : Nat) : ℚ) * 50 / ((100 : Nat) : ℚ)))) ∧
     (50 < max 100 60 → 100 ≤ 60 →
        thumbDims 100 60 50 50 = (round (((100 : Nat) : ℚ) * 50 / ((60 : Nat) : ℚ)), 50))) ∧
    (∀ (b : Blob) (env : ThumbEnv), env.decodeOk = true → env.ctxOk = true →
      (generateThumbnailFromBlob b 50 50 env).encodeCall
          = some ("image/jpeg", 4/5) ∧
      (generateThumbnailFromBlob b 50 50 env).dims
          = some (thumbDims env.width env.height 50 50)) :=
  thumbDims_aspect_and_jpeg_quality 100 60 (by decide) (by decide)

/-- Witness for the C10 theorem: all three non-settling cases at concrete
inputs. -/
theorem loadImageThumbnailData_pending_cases_witness :
    loadImageThumbnailData demoLoadEnvNone = PromiseOutcome.pending ∧
    loadImageThumbnailData demoLoadEnvNoData = PromiseOutcome.pending ∧
    loadImageThumbnailData demoLoadEnvGenFail = PromiseOutcome.pending :=
  ⟨(loadImageThumbnailData_pending_cases demoLoadEnvNone demoImg demoBlob).1 rfl,
   (loadImageThumbnailData_pending_cases demoLoadEnvNoData demoBareImg
      demoBlob).2.1 rfl rfl rfl,
   (loadImageThumbnailData_pending_cases demoLoadEnvGenFail demoGarbageImg
      demoGarbageBlob).2.2 rfl rfl rfl (by decide)⟩
